import Mathlib

/-!
Shallow embedding of the AI task-suggestion client
(`src/layers/shared/nodejs/bedrock-client.ts`) and of the AI-processor
HTTP handler, together with proofs checking the natural-language
specification against this code.

Strings are modelled as Lean `String`s (lists of characters); JavaScript
string operations (`includes`, `toLowerCase`, `trim`, `substring`,
`split`, `||` on falsy values) are embedded as executable functions
below.  The remote Bedrock endpoint is abstracted as an oracle
`Nat → SendOutcome` giving the outcome of `bedrockClient.send` at each
attempt index; `JSON.parse` of the matched JSON substring is abstracted
as an oracle `String → Except String ParsedTask` (it may throw, or
produce a value cast to the expected shape).  Thrown JavaScript errors
are modelled with `Except`.
-/

namespace AITodo

/-! ### JavaScript string primitives -/

/-- Prefix test on character lists (helper for substring search). -/
def hasPre : List Char → List Char → Bool
  | _, [] => true
  | [], _ :: _ => false
  | c :: cs, p :: ps => c == p && hasPre cs ps

/-- Substring occurrence test on character lists. -/
def hasSub : List Char → List Char → Bool
  | [], pat => pat.isEmpty
  | c :: cs, pat => hasPre (c :: cs) pat || hasSub cs pat

/-- JS `s.includes(pat)`. -/
def strIncludes (s pat : String) : Bool := hasSub s.toList pat.toList

/-- JS `s.toLowerCase()` (ASCII letters; the keyword tables of the repository are ASCII). -/
def lowerS (s : String) : String := ⟨s.toList.map Char.toLower⟩

/-- JS whitespace recognised by `String.prototype.trim` (ASCII part). -/
def jsWhitespace (c : Char) : Bool :=
  c == ' ' || c == '\t' || c == '\n' || c == '\r' || c == '\x0b' || c == '\x0c'

/-- JS `s.trim()` on a character list. -/
def trimL (l : List Char) : List Char :=
  ((l.dropWhile jsWhitespace).reverse.dropWhile jsWhitespace).reverse

/-- JS `s.trim()`. -/
def trimS (s : String) : String := ⟨trimL s.toList⟩

/-- JS `s.substring(0, n)` (ASCII: code units = characters). -/
def substringTo (s : String) (n : Nat) : String := ⟨s.toList.take n⟩

/-- JS `a || b` where `a` is a string field that may be `undefined`
(absent) and the empty string is falsy. -/
def jsOrStr (a : Option String) (b : String) : String :=
  match a with
  | some s => if s == "" then b else s
  | none => b

/-! ### Error and remote-endpoint model -/

/-- A thrown JavaScript error as inspected by the client:
`error.name` and `error.message`. -/
structure JsError where
  name : String
  msg : String
deriving DecidableEq

/-- Embeds the throttling test of bedrock-client.ts line 68: the error name
equals ThrottlingException, or its message includes "throttl" or
"Too many tokens". -/
def isThrottlingError (e : JsError) : Bool :=
  e.name == "ThrottlingException" || strIncludes e.msg "throttl" ||
    strIncludes e.msg "Too many tokens"

/-- Outcome of one `bedrockClient.send` + body decode at a given attempt:
either a decoded response body (its `generation` field and its
`choices?.[0]?.message?.content` field, each possibly absent), or a
thrown error. -/
inductive SendOutcome where
  | ok (generation : Option String) (choicesContent : Option String)
  | raise (e : JsError)

/-- Configuration `RETRY_CONFIG` (bedrock-client.ts lines 25–29). -/
structure RetryConfig where
  maxRetries : Nat
  baseDelayMs : Nat
  maxDelayMs : Nat

def RETRY_CONFIG : RetryConfig := ⟨3, 500, 4000⟩

/-- Backoff delay `Math.min(baseDelayMs * Math.pow(2, attempt), maxDelayMs)`
(bedrock-client.ts lines 69–72). -/
def backoffDelay (attempt : Nat) : Nat :=
  min (RETRY_CONFIG.baseDelayMs * 2 ^ attempt) RETRY_CONFIG.maxDelayMs

/-- Embeds bedrock-client.ts line 63: the `generation` field, else the
`choices` message content, else the empty string (JS falsy chaining). -/
def extractResponseText (generation choicesContent : Option String) : String :=
  jsOrStr generation (jsOrStr choicesContent "")

/-- Builds the terminal throttled-error message of bedrock-client.ts line 91,
with its default when the last error is absent or has an empty message. -/
def throttledMsg (lastError : Option JsError) : String :=
  "AI service throttled: " ++
    (match lastError with
     | some e => if e.msg == "" then "Rate limit exceeded" else e.msg
     | none => "Rate limit exceeded")

/-- Builds the fatal-error message of bedrock-client.ts line 85, with its
default for an empty message. -/
def fatalMsg (e : JsError) : String :=
  "AI service error: " ++ (if e.msg == "" then "Model invocation failed" else e.msg)

/-- Observable run of `invokeBedrockModel`: the returned text or thrown
error message, the number of `bedrockClient.send` attempts made, and the
backoff delays slept (in order). -/
structure InvokeRun where
  result : Except String String
  attempts : Nat
  delays : List Nat

/-- The retry loop of `invokeBedrockModel` (bedrock-client.ts lines 56–91):
`for (let attempt = 0; attempt < RETRY_CONFIG.maxRetries; attempt++)`,
retrying with backoff only on throttling errors, failing immediately on
other errors, and throwing the terminal throttled error when the loop
exits.  `remaining` counts the loop iterations still allowed. -/
def invokeFrom (oracle : Nat → SendOutcome) (lastError : Option JsError)
    (attempt : Nat) : Nat → InvokeRun
  | 0 => ⟨.error (throttledMsg lastError), 0, []⟩
  | remaining + 1 =>
    match oracle attempt with
    | .ok g c => ⟨.ok (extractResponseText g c), 1, []⟩
    | .raise e =>
      if isThrottlingError e then
        let rest := invokeFrom oracle (some e) (attempt + 1) remaining
        ⟨rest.result, rest.attempts + 1, backoffDelay attempt :: rest.delays⟩
      else
        ⟨.error (fatalMsg e), 1, []⟩

/-- Embeds `invokeBedrockModel` (bedrock-client.ts lines 35–92).  The prompt and
model configuration do not influence control flow once the endpoint is
abstracted by the oracle, so they are not carried here. -/
def invokeBedrockModel (oracle : Nat → SendOutcome) : InvokeRun :=
  invokeFrom oracle none 0 RETRY_CONFIG.maxRetries

/-! ### Rule-based fallback (bedrock-client.ts lines 116–234) -/

/-- One entry of `categoryRules`. -/
structure CategoryRule where
  category : String
  keywords : List String
  tips : List String
deriving DecidableEq

/-- Table `categoryRules` (bedrock-client.ts lines 125–171), in declaration order. -/
def categoryRules : List CategoryRule := [
  ⟨"Shopping",
   ["buy", "shop", "groceries", "purchase", "order", "pick up", "store", "market",
    "amazon", "online"],
   ["Make a detailed list before shopping", "Compare prices across stores",
    "Check for coupons or deals"]⟩,
  ⟨"Work",
   ["work", "meeting", "report", "email", "project", "presentation", "deadline",
    "client", "office", "boss", "colleague", "review", "submit", "send"],
   ["Block focused time on your calendar", "Prepare an outline first",
    "Set a clear deadline"]⟩,
  ⟨"Health",
   ["exercise", "gym", "doctor", "health", "medicine", "workout", "run", "yoga",
    "dentist", "appointment", "vitamin", "sleep", "diet", "walk"],
   ["Schedule at a consistent time daily", "Track your progress",
    "Start small and build up"]⟩,
  ⟨"Learning",
   ["learn", "study", "read", "course", "tutorial", "book", "practice", "skill",
    "class", "lesson", "research", "watch"],
   ["Set aside 25-minute focused sessions", "Take notes for better retention",
    "Review what you learned yesterday"]⟩,
  ⟨"Finance",
   ["pay", "bill", "budget", "bank", "money", "invoice", "tax", "expense", "save",
    "invest", "transfer"],
   ["Set up automatic payments if possible", "Keep receipts organized",
    "Review your spending weekly"]⟩,
  ⟨"Home",
   ["clean", "fix", "repair", "organize", "laundry", "dishes", "cook", "garden",
    "furniture", "decorate", "maintenance"],
   ["Break into room-by-room tasks", "Set a timer for focused cleaning",
    "Gather supplies before starting"]⟩,
  ⟨"Social",
   ["call", "family", "friend", "birthday", "party", "visit", "dinner", "lunch",
    "coffee", "meet", "celebrate", "gift"],
   ["Add to your calendar with reminders", "Prepare talking points if needed",
    "Follow up after the event"]⟩,
  ⟨"Travel",
   ["travel", "trip", "flight", "hotel", "book", "vacation", "pack", "passport",
    "visa", "reservation"],
   ["Create a packing checklist", "Book early for better prices",
    "Save confirmation numbers"]⟩,
  ⟨"Creative",
   ["write", "design", "create", "draw", "paint", "music", "photo", "video",
    "blog", "art"],
   ["Start with a rough draft or sketch", "Set a creative block in your schedule",
    "Gather inspiration first"]⟩]

/-- The running best match of the category-selection loop. -/
structure BestMatch where
  category : String
  tips : List String
deriving DecidableEq

/-- Initial `bestMatch` (bedrock-client.ts line 174): General with the
generic 3-tip default. -/
def defaultBest : BestMatch :=
  ⟨"General",
   ["Break this task into smaller steps", "Set a specific deadline",
    "Review progress regularly"]⟩

/-- Count `rule.keywords.filter(kw => taskLower.includes(kw)).length`
(bedrock-client.ts line 178). -/
def countMatches (taskLower : String) (kws : List String) : Nat :=
  (kws.filter (fun kw => strIncludes taskLower kw)).length

/-- Keyword-match count of one rule against the lower-cased task. -/
def ruleCount (taskLower : String) (r : CategoryRule) : Nat :=
  countMatches taskLower r.keywords

/-- The `for (const rule of categoryRules)` selection loop
(bedrock-client.ts lines 177–183): replace the best match only when the
count of the current rule strictly exceeds the running maximum. -/
def bestMatchLoop (taskLower : String) :
    List CategoryRule → BestMatch → Nat → BestMatch
  | [], best, _ => best
  | r :: rs, best, maxMatches =>
    let m := ruleCount taskLower r
    if m > maxMatches then bestMatchLoop taskLower rs ⟨r.category, r.tips⟩ m
    else bestMatchLoop taskLower rs best maxMatches

/-- Markers `highPriorityWords` (bedrock-client.ts line 189). -/
def highPriorityWords : List String :=
  ["urgent", "asap", "important", "deadline", "today", "now", "critical",
   "emergency", "immediately", "priority"]

/-- Markers `lowPriorityWords` (bedrock-client.ts line 190). -/
def lowPriorityWords : List String :=
  ["later", "someday", "maybe", "eventually", "when possible", "no rush",
   "whenever"]

/-- Priority detection (bedrock-client.ts lines 192–196): high markers
checked first, then low markers, default medium. -/
def priorityOf (taskLower : String) : String :=
  if highPriorityWords.any (fun w => strIncludes taskLower w) then "high"
  else if lowPriorityWords.any (fun w => strIncludes taskLower w) then "low"
  else "medium"

/-- Embeds `generateTaskSpecificTip` (bedrock-client.ts lines 211–234); the
`category` argument is accepted and unused, as in the source. -/
def generateTaskSpecificTip (task : String) (_category : String) : Option String :=
  let taskLower := lowerS task
  if strIncludes taskLower "tomorrow" || strIncludes taskLower "today" then
    some "This is time-sensitive - prioritize it in your schedule"
  else if strIncludes taskLower "weekly" || strIncludes taskLower "every" then
    some "Consider setting up a recurring reminder"
  else if strIncludes taskLower "finish" || strIncludes taskLower "complete" then
    some "Review what\x27s already done before continuing"
  else if strIncludes taskLower "start" || strIncludes taskLower "begin" then
    some "Spend 5 minutes planning before you start"
  else if strIncludes taskLower "prepare" || strIncludes taskLower "plan" then
    some "Write down all the components you need"
  else
    none

/-- Category, priority and tips computed by `generateFallbackSuggestion`
(bedrock-client.ts lines 116–202), before rendering the answer text. -/
structure FallbackParts where
  category : String
  priority : String
  tips : List String
deriving DecidableEq

def fallbackParts (task : String) : FallbackParts :=
  let taskLower := lowerS task
  let best := bestMatchLoop taskLower categoryRules defaultBest 0
  let priority := priorityOf taskLower
  let tips := best.tips
  let tips :=
    match generateTaskSpecificTip task best.category with
    | some t => if tips.contains t then tips else t :: tips.take 2
    | none => tips
  ⟨best.category, priority, tips⟩

/-- The template string returned by `generateFallbackSuggestion`
(bedrock-client.ts lines 204–207). -/
def generateFallbackSuggestion (task : String) : String :=
  let p := fallbackParts task
  "1. Suggested category: " ++ p.category ++
    "\n2. Recommended priority: " ++ p.priority ++
    "\n3. Tips for \"" ++ substringTo task 30 ++
    (if task.toList.length > 30 then "..." else "") ++ "\":\n" ++
    String.intercalate "\n" (p.tips.map (fun t => "   - " ++ t))

/-! ### generateTaskSuggestion and parseNaturalLanguageTask -/

/-- Observable run of `generateTaskSuggestion`: result (or thrown error),
remote attempts made, delays slept. -/
structure SuggestRun where
  result : Except String String
  attempts : Nat
  delays : List Nat

/-- Embeds `generateTaskSuggestion` (bedrock-client.ts lines 94–113): try the
remote model, catch any error and fall back. -/
def generateTaskSuggestion (oracle : Nat → SendOutcome)
    (taskDescription : String) : SuggestRun :=
  let run := invokeBedrockModel oracle
  match run.result with
  | .ok s => ⟨.ok s, run.attempts, run.delays⟩
  | .error _ => ⟨.ok (generateFallbackSuggestion taskDescription), run.attempts, run.delays⟩

/-- The record produced by `parseNaturalLanguageTask` / `parseTaskFallback`. -/
structure ParsedTask where
  title : String
  description : String
  category : String
deriving DecidableEq

/-- The greedy regex `/\x7b[\s\S]*\x7d/` applied by
`parseNaturalLanguageTask` (bedrock-client.ts line 248): the substring
from the first opening brace through the last closing brace, when the
first opening brace is followed by a closing brace. -/
def jsonMatchSub (s : List Char) : Option (List Char) :=
  match s.dropWhile (fun c => c != '\x7b') with
  | [] => none
  | br :: rest =>
    let tail := (rest.reverse.dropWhile (fun c => c != '\x7d')).reverse
    if tail.isEmpty then none else some (br :: tail)

/-- Category detection of `parseTaskFallback` (bedrock-client.ts lines
264–272): each regex `a|b|…` over the lower-cased input is an any-of
substring test. -/
def parseCategoryOf (inputLower : String) : String :=
  if ["buy", "shop", "groceries", "order", "purchase"].any
      (fun w => strIncludes inputLower w) then "Shopping"
  else if ["work", "meeting", "report", "email", "project", "deadline"].any
      (fun w => strIncludes inputLower w) then "Work"
  else if ["exercise", "gym", "doctor", "health", "workout"].any
      (fun w => strIncludes inputLower w) then "Health"
  else if ["learn", "study", "read", "course", "practice"].any
      (fun w => strIncludes inputLower w) then "Learning"
  else if ["pay", "bill", "bank", "money", "budget"].any
      (fun w => strIncludes inputLower w) then "Finance"
  else if ["clean", "fix", "organize", "home", "laundry"].any
      (fun w => strIncludes inputLower w) then "Home"
  else if ["call", "family", "friend", "meet", "visit"].any
      (fun w => strIncludes inputLower w) then "Social"
  else "General"

/-- A character terminating the first segment of `input.split(/[.!?\n]/)`. -/
def isSentenceTerm (c : Char) : Bool :=
  c == '.' || c == '!' || c == '?' || c == '\n'

/-- Embeds `input.split(/[.!?\n]/)[0]`: the text before the first terminator
(the whole input when none occurs). -/
def firstSegment (s : String) : String :=
  ⟨s.toList.takeWhile (fun c => !isSentenceTerm c)⟩

/-- Embeds `parseTaskFallback` (bedrock-client.ts lines 261–282). -/
def parseTaskFallback (input : String) : ParsedTask :=
  let inputLower := lowerS input
  let category := parseCategoryOf inputLower
  let seg := trimS (firstSegment input)
  let title := if seg == "" then substringTo input 50 else seg
  let description :=
    if input.toList.length > title.toList.length then
      trimS ⟨input.toList.drop title.toList.length⟩
    else ""
  ⟨title, description, category⟩

/-- Observable run of `parseNaturalLanguageTask`. -/
structure ParseRun where
  result : Except String ParsedTask
  attempts : Nat
  delays : List Nat

/-- Embeds `parseNaturalLanguageTask` (bedrock-client.ts lines 236–258): try the
remote model, extract the first-to-last-brace JSON substring, parse it
(`jsonParse` abstracts `JSON.parse`, which may throw); any failure falls
through to `parseTaskFallback`. -/
def parseNaturalLanguageTask (oracle : Nat → SendOutcome)
    (jsonParse : String → Except String ParsedTask)
    (naturalLanguageInput : String) : ParseRun :=
  let run := invokeBedrockModel oracle
  match run.result with
  | .ok response =>
    match jsonMatchSub response.toList with
    | some m =>
      match jsonParse ⟨m⟩ with
      | .ok pt => ⟨.ok pt, run.attempts, run.delays⟩
      | .error _ => ⟨.ok (parseTaskFallback naturalLanguageInput), run.attempts, run.delays⟩
    | none => ⟨.ok (parseTaskFallback naturalLanguageInput), run.attempts, run.delays⟩
  | .error _ => ⟨.ok (parseTaskFallback naturalLanguageInput), run.attempts, run.delays⟩

/-! ### The AI-processor HTTP handler -/

/-- The payload wrapped by the success response of the handler. -/
inductive AIResult where
  | suggestion (s : String)
  | parsed (p : ParsedTask)

/-- Embeds `successResponse` and `errorResponse` of the shared utils
layer (src/unnamed/part_002 lines 57–76): a success response carries
its data and status code (the handler relies on the default 200) and a
body with success true; an error response carries its message (the
message of the Error, or the string itself) and status code (400 passed
explicitly for the invalid-input rejection, default 500 in the
catch-all) and a body with success false.  The JSON body and headers
are modelled structurally; the metrics and logging side effects are not
observable here. -/
inductive ApiResponse where
  | success (data : AIResult) (statusCode : Nat)
  | error (message : String) (statusCode : Nat)

/-- The parsed request body `{ task, mode }`; either field may be absent. -/
structure RequestBody where
  task : Option String
  mode : Option String

/-- Guard `!body.task || body.task.trim().length === 0` (handler line 66). -/
def taskMissing (t : Option String) : Bool :=
  match t with
  | none => true
  | some s => s == "" || trimS s == ""

/-- Observable run of the handler: the HTTP response and the number of
remote invocation attempts made. -/
structure HandlerRun where
  response : ApiResponse
  attempts : Nat

/-- The AITaskProcessor handler (stream-consumer/index.ts lines 59–91).
Parsing the request body (line 64: JSON.parse of the event body,
defaulting to the empty-object text when the body is absent or empty)
is abstracted as the `bodyParse` oracle; when it throws, the catch-all
surfaces `errorResponse` with the thrown message and the default status
500.  With a parsed body, an empty or whitespace-only task is rejected
with the 400 invalid-input error before any remote call; otherwise the
handler dispatches on `body.mode === "parse"` and wraps the result of
the operation in `successResponse` (default status 200).  `captureAsync`
(src/unnamed/part_002 lines 14–33) returns the result of the wrapped
function unchanged and rethrows its errors, so it is transparent here. -/
def handler (oracle : Nat → SendOutcome)
    (jsonParse : String → Except String ParsedTask)
    (bodyParse : String → Except String RequestBody)
    (rawBody : Option String) : HandlerRun :=
  match bodyParse (jsOrStr rawBody "\x7b\x7d") with
  | .error e => ⟨.error e 500, 0⟩
  | .ok body =>
    if taskMissing body.task then ⟨.error "Task is required" 400, 0⟩
    else
      let task := body.task.getD ""
      if body.mode == some "parse" then
        let run := parseNaturalLanguageTask oracle jsonParse task
        match run.result with
        | .ok p => ⟨.success (.parsed p) 200, run.attempts⟩
        | .error e => ⟨.error e 500, run.attempts⟩
      else
        let run := generateTaskSuggestion oracle task
        match run.result with
        | .ok s => ⟨.success (.suggestion s) 200, run.attempts⟩
        | .error e => ⟨.error e 500, run.attempts⟩

/-! ### Specification-side definitions -/

/-- The fixed category set named by the specification. -/
def fixedCategories : List String :=
  ["Work", "Personal", "Shopping", "Health", "Learning", "Finance", "Home",
   "Social", "Travel", "Creative", "General"]

/-- Maximum of the rule counts with initial value `m`. -/
def maxCount (taskLower : String) (rs : List CategoryRule) (m : Nat) : Nat :=
  (rs.map (ruleCount taskLower)).foldr max m

/-- Category selection as the specification words it: the strictly
greatest keyword count wins, ties resolve to the first rule in table
declaration order, and if no rule scores above zero the result is
General with the generic 3-tip default. -/
def specBest (taskLower : String) : BestMatch :=
  if maxCount taskLower categoryRules 0 = 0 then defaultBest
  else
    match categoryRules.find?
        (fun r => ruleCount taskLower r == maxCount taskLower categoryRules 0) with
    | some r => ⟨r.category, r.tips⟩
    | none => defaultBest

/-- Elimination of an optional selected rule onto a best match. -/
def pickBest (best : BestMatch) : Option CategoryRule → BestMatch
  | some r => ⟨r.category, r.tips⟩
  | none => best

/-- Always-throttling oracle used to witness the retry-budget claims. -/
def throttleOracle : Nat → SendOutcome :=
  fun _ => .raise ⟨"ThrottlingException", "Rate exceeded"⟩

/-- Oracle whose first attempt raises a fatal (non-throttling) error. -/
def fatalOracle : Nat → SendOutcome :=
  fun _ => .raise ⟨"ValidationException", "bad request"⟩

/-- Oracle whose first attempt succeeds with a body missing both text fields. -/
def emptyBodyOracle : Nat → SendOutcome :=
  fun _ => .ok none none

/-- Oracle whose first attempt succeeds with arbitrary model text. -/
def bogusTextOracle : Nat → SendOutcome :=
  fun _ => .ok (some "Bogus") none

/-- A `JSON.parse` stand-in that always fails, for witnesses. -/
def failingJsonParse : String → Except String ParsedTask :=
  fun _ => .error "Unexpected token"

/-- A body-parse stand-in yielding a fixed parsed body, for witnesses. -/
def parsedBodyOf (body : RequestBody) : String → Except String RequestBody :=
  fun _ => .ok body

/-! ### Lemmas on the retry loop -/

theorem invokeFrom_ok (oracle : Nat → SendOutcome) (lastError : Option JsError)
    (attempt remaining : Nat) (g c : Option String)
    (ho : oracle attempt = .ok g c) :
    invokeFrom oracle lastError attempt (remaining + 1) =
      ⟨.ok (extractResponseText g c), 1, []⟩ := by
  simp [invokeFrom, ho]

theorem invokeFrom_throttle (oracle : Nat → SendOutcome) (lastError : Option JsError)
    (attempt remaining : Nat) (e : JsError)
    (ho : oracle attempt = .raise e) (ht : isThrottlingError e = true) :
    invokeFrom oracle lastError attempt (remaining + 1) =
      ⟨(invokeFrom oracle (some e) (attempt + 1) remaining).result,
       (invokeFrom oracle (some e) (attempt + 1) remaining).attempts + 1,
       backoffDelay attempt :: (invokeFrom oracle (some e) (attempt + 1) remaining).delays⟩ := by
  simp [invokeFrom, ho, ht]

theorem invokeFrom_fatal (oracle : Nat → SendOutcome) (lastError : Option JsError)
    (attempt remaining : Nat) (e : JsError)
    (ho : oracle attempt = .raise e) (ht : isThrottlingError e = false) :
    invokeFrom oracle lastError attempt (remaining + 1) =
      ⟨.error (fatalMsg e), 1, []⟩ := by
  simp [invokeFrom, ho, ht]

/-- A string whose character list is nonempty is not the empty string. -/
theorem str_ne_empty_of_data (s : String) (h : s.data ≠ []) : s ≠ "" :=
  fun hq => h (congrArg String.data hq)

/-- Appending cannot erase a nonempty left part. -/
theorem data_append_ne (s t : String) (h : s.data ≠ []) : (s ++ t).data ≠ [] := by
  have h3 : (s ++ t).data = s.data ++ t.data := rfl
  rw [h3]
  intro hq
  exact h (List.append_eq_nil.mp hq).1

/-- Operation `generateTaskSuggestion` always returns (it catches every thrown error). -/
theorem suggest_ok (oracle : Nat → SendOutcome) (task : String) :
    ∃ s, (generateTaskSuggestion oracle task).result = .ok s := by
  cases h : (invokeBedrockModel oracle).result with
  | ok s => exact ⟨s, by simp [generateTaskSuggestion, h]⟩
  | error e =>
    exact ⟨generateFallbackSuggestion task, by simp [generateTaskSuggestion, h]⟩

/-- Operation `parseNaturalLanguageTask` always returns (every failure falls back). -/
theorem parse_ok (oracle : Nat → SendOutcome)
    (jsonParse : String → Except String ParsedTask) (input : String) :
    ∃ p, (parseNaturalLanguageTask oracle jsonParse input).result = .ok p := by
  cases h : (invokeBedrockModel oracle).result with
  | error e =>
    exact ⟨parseTaskFallback input, by simp [parseNaturalLanguageTask, h]⟩
  | ok response =>
    cases hm : jsonMatchSub response.data with
    | none =>
      exact ⟨parseTaskFallback input,
        by simp [parseNaturalLanguageTask, String.toList, h, hm]⟩
    | some m =>
      cases hj : jsonParse ⟨m⟩ with
      | ok pt =>
        exact ⟨pt, by simp [parseNaturalLanguageTask, String.toList, h, hm, hj]⟩
      | error e =>
        exact ⟨parseTaskFallback input,
          by simp [parseNaturalLanguageTask, String.toList, h, hm, hj]⟩

/-! ### Claim theorems (remote path and error handling) -/

/-- Claim C2: for every input, neither `generateTaskSuggestion` nor
`parseNaturalLanguageTask` ever propagates a remote-inference failure or
a JSON-parse failure to the caller: whatever the remote outcomes and the
JSON-parse outcome, both operations return a result (absorbing every
failure through the rule-based fallback). -/
theorem C2_theorem (oracle : Nat → SendOutcome)
    (jsonParse : String → Except String ParsedTask) (task input : String) :
    (∃ s, (generateTaskSuggestion oracle task).result = .ok s) ∧
    (∃ p, (parseNaturalLanguageTask oracle jsonParse input).result = .ok p) :=
  ⟨suggest_ok oracle task, parse_ok oracle jsonParse input⟩

/-- The concrete throttling error of `throttleOracle` is recognised as such. -/
theorem throttleErr_is_throttling :
    isThrottlingError ⟨"ThrottlingException", "Rate exceeded"⟩ = true := by
  decide

/-- Claim C3, counterexample: with a remote endpoint that always raises a
throttling error, `invokeBedrockModel` makes exactly 3 invocation
attempts, not `maxRetries + 1 = 4` as claimed. -/
theorem C3_counterexample :
    (invokeBedrockModel throttleOracle).attempts = 3 ∧
    ¬ (invokeBedrockModel throttleOracle).attempts = RETRY_CONFIG.maxRetries + 1 := by
  constructor
  · rfl
  · intro h
    have h3 : (invokeBedrockModel throttleOracle).attempts = 3 := rfl
    rw [h3] at h
    exact absurd h (by decide)

/-- Claim C3 as amended: when every remote invocation raises a throttling
error, `invokeBedrockModel` makes exactly `maxRetries = 3` invocation
attempts (the loop runs `attempt < maxRetries`, so the first attempt
consumes retry budget), sleeping `min(baseDelay * 2 ^ attempt, maxDelay)`
= 500, 1000, 2000 ms after the respective failed attempts (the last
sleep precedes no retry), then raises the terminal throttled error built
from the last error. -/
theorem C3_theorem (oracle : Nat → SendOutcome) (errs : Nat → JsError)
    (ho : ∀ n, oracle n = .raise (errs n))
    (ht : ∀ n, isThrottlingError (errs n) = true) :
    (invokeBedrockModel oracle).attempts = RETRY_CONFIG.maxRetries ∧
    (invokeBedrockModel oracle).delays = [backoffDelay 0, backoffDelay 1, backoffDelay 2] ∧
    [backoffDelay 0, backoffDelay 1, backoffDelay 2] = [500, 1000, 2000] ∧
    (invokeBedrockModel oracle).result = .error (throttledMsg (some (errs 2))) := by
  have e3 : invokeFrom oracle (some (errs 2)) 3 0 =
      ⟨.error (throttledMsg (some (errs 2))), 0, []⟩ := rfl
  have e2 : invokeFrom oracle (some (errs 1)) 2 1 =
      ⟨.error (throttledMsg (some (errs 2))), 1, [backoffDelay 2]⟩ := by
    rw [show (1 : Nat) = 0 + 1 from rfl,
      invokeFrom_throttle oracle (some (errs 1)) 2 0 (errs 2) (ho 2) (ht 2), e3]
  have e1 : invokeFrom oracle (some (errs 0)) 1 2 =
      ⟨.error (throttledMsg (some (errs 2))), 2, [backoffDelay 1, backoffDelay 2]⟩ := by
    rw [show (2 : Nat) = 1 + 1 from rfl,
      invokeFrom_throttle oracle (some (errs 0)) 1 1 (errs 1) (ho 1) (ht 1), e2]
  have e0 : invokeBedrockModel oracle =
      ⟨.error (throttledMsg (some (errs 2))), 3,
       [backoffDelay 0, backoffDelay 1, backoffDelay 2]⟩ := by
    show invokeFrom oracle none 0 (2 + 1) = _
    rw [invokeFrom_throttle oracle none 0 2 (errs 0) (ho 0) (ht 0), e1]
  exact ⟨by rw [e0]; rfl, by rw [e0], by decide, by rw [e0]⟩

/-- Witness for C3: the always-throttling oracle realises the hypotheses. -/
theorem C3_witness :
    (invokeBedrockModel throttleOracle).attempts = RETRY_CONFIG.maxRetries ∧
    (invokeBedrockModel throttleOracle).delays = [backoffDelay 0, backoffDelay 1, backoffDelay 2] ∧
    [backoffDelay 0, backoffDelay 1, backoffDelay 2] = [500, 1000, 2000] ∧
    (invokeBedrockModel throttleOracle).result =
      .error (throttledMsg (some ⟨"ThrottlingException", "Rate exceeded"⟩)) :=
  C3_theorem throttleOracle (fun _ => ⟨"ThrottlingException", "Rate exceeded"⟩)
    (fun _ => rfl) (fun _ => throttleErr_is_throttling)

/-- Claim C4: a non-throttling error on the first attempt makes
`invokeBedrockModel` stop after exactly 1 attempt with no backoff sleep,
and `generateTaskSuggestion` then returns the rule-based fallback. -/
theorem C4_theorem (oracle : Nat → SendOutcome) (e : JsError) (task : String)
    (ho : oracle 0 = .raise e) (ht : isThrottlingError e = false) :
    (invokeBedrockModel oracle).attempts = 1 ∧
    (invokeBedrockModel oracle).delays = [] ∧
    (invokeBedrockModel oracle).result = .error (fatalMsg e) ∧
    (generateTaskSuggestion oracle task).result = .ok (generateFallbackSuggestion task) := by
  have h : invokeBedrockModel oracle = ⟨.error (fatalMsg e), 1, []⟩ := by
    show invokeFrom oracle none 0 (2 + 1) = _
    exact invokeFrom_fatal oracle none 0 2 e ho ht
  refine ⟨by rw [h], by rw [h], by rw [h], ?_⟩
  simp [generateTaskSuggestion, h]

/-- Witness for C4: a concrete fatal (validation) error on attempt 0. -/
theorem C4_witness :
    (invokeBedrockModel fatalOracle).attempts = 1 ∧
    (invokeBedrockModel fatalOracle).delays = [] ∧
    (invokeBedrockModel fatalOracle).result =
      .error (fatalMsg ⟨"ValidationException", "bad request"⟩) ∧
    (generateTaskSuggestion fatalOracle "x").result =
      .ok (generateFallbackSuggestion "x") :=
  C4_theorem fatalOracle ⟨"ValidationException", "bad request"⟩ "x" rfl (by decide)

/-- Claim C9: a successful remote response whose decoded body carries
neither a `generation` field nor a `choices[0].message.content` field
makes `invokeBedrockModel` return the empty string, which
`generateTaskSuggestion` passes through unchanged — the caller gets an
empty suggestion, not the rule-based fallback (which is never empty). -/
theorem C9_theorem (oracle : Nat → SendOutcome) (task : String)
    (h : oracle 0 = .ok none none) :
    (generateTaskSuggestion oracle task).result = .ok "" ∧
    generateFallbackSuggestion task ≠ "" := by
  have hinv : invokeBedrockModel oracle = ⟨.ok "", 1, []⟩ := by
    show invokeFrom oracle none 0 (2 + 1) = _
    rw [invokeFrom_ok oracle none 0 2 none none h]
    rfl
  constructor
  · simp [generateTaskSuggestion, hinv]
  · apply str_ne_empty_of_data
    simp only [generateFallbackSuggestion]
    repeat apply data_append_ne
    decide

/-- Witness for C9: a concrete body with both fields absent. -/
theorem C9_witness :
    (generateTaskSuggestion emptyBodyOracle "x").result = .ok "" ∧
    generateFallbackSuggestion "x" ≠ "" :=
  C9_theorem emptyBodyOracle "x" rfl

/-! ### Lemmas on the category-selection loop -/

theorem foldrMax_init_le (l : List Nat) (m : Nat) : m ≤ l.foldr max m := by
  induction l with
  | nil => exact Nat.le_refl m
  | cons x l ih => exact Nat.le_trans ih (Nat.le_max_right x _)

theorem le_foldrMax_of_mem {x : Nat} (l : List Nat) (m : Nat) (h : x ∈ l) :
    x ≤ l.foldr max m := by
  induction l with
  | nil => cases h
  | cons y l ih =>
    rcases List.mem_cons.mp h with h1 | h1
    · subst h1; exact Nat.le_max_left x _
    · exact Nat.le_trans (ih h1) (Nat.le_max_right y _)

theorem foldrMax_shift (l : List Nat) (c m : Nat) :
    l.foldr max (max c m) = max c (l.foldr max m) := by
  induction l with
  | nil => rfl
  | cons x l ih =>
    show max x (l.foldr max (max c m)) = max c (max x (l.foldr max m))
    rw [ih, Nat.max_left_comm]

theorem foldrMax_attained (l : List Nat) (m : Nat) :
    l.foldr max m = m ∨ (l.foldr max m) ∈ l := by
  induction l with
  | nil => exact Or.inl rfl
  | cons x l ih =>
    show (max x (l.foldr max m) = m) ∨ max x (l.foldr max m) ∈ x :: l
    rcases Nat.le_total x (l.foldr max m) with h | h
    · rw [Nat.max_eq_right h]
      rcases ih with h1 | h1
      · exact Or.inl h1
      · exact Or.inr (List.mem_cons_of_mem x h1)
    · rw [Nat.max_eq_left h]
      exact Or.inr (List.mem_cons_self x l)

theorem maxCount_cons (tl : String) (r : CategoryRule) (rs : List CategoryRule)
    (m : Nat) :
    maxCount tl (r :: rs) m = max (ruleCount tl r) (maxCount tl rs m) := rfl

theorem le_maxCount_init (tl : String) (rs : List CategoryRule) (m : Nat) :
    m ≤ maxCount tl rs m := foldrMax_init_le _ m

theorem ruleCount_le_maxCount (tl : String) {r : CategoryRule}
    (rs : List CategoryRule) (m : Nat) (h : r ∈ rs) :
    ruleCount tl r ≤ maxCount tl rs m :=
  le_foldrMax_of_mem _ m (List.mem_map_of_mem _ h)

theorem maxCount_attained (tl : String) (rs : List CategoryRule) (m : Nat) :
    maxCount tl rs m = m ∨ ∃ r ∈ rs, ruleCount tl r = maxCount tl rs m := by
  rcases foldrMax_attained (rs.map (ruleCount tl)) m with h | h
  · exact Or.inl h
  · rcases List.mem_map.mp h with ⟨r, hr, he⟩
    exact Or.inr ⟨r, hr, he⟩

theorem find?_congr_mem {α : Type} (l : List α) (p q : α → Bool)
    (h : ∀ a ∈ l, p a = q a) : l.find? p = l.find? q := by
  induction l with
  | nil => rfl
  | cons a l ih =>
    have ha := h a (List.mem_cons_self a l)
    by_cases hp : p a = true
    · rw [List.find?_cons_of_pos _ hp, List.find?_cons_of_pos _ (ha ▸ hp)]
    · have hq : ¬ q a = true := fun hh => hp (by rw [ha]; exact hh)
      rw [List.find?_cons_of_neg _ hp, List.find?_cons_of_neg _ hq]
      exact ih fun x hx => h x (List.mem_cons_of_mem a hx)

/-- The selection loop only ever returns its initial best match or the
category/tips of one of the rules it scanned. -/
theorem bestMatchLoop_mem (tl : String) :
    ∀ (rs : List CategoryRule) (best : BestMatch) (m : Nat),
    bestMatchLoop tl rs best m = best ∨
      ∃ r ∈ rs, bestMatchLoop tl rs best m = ⟨r.category, r.tips⟩ := by
  intro rs
  induction rs with
  | nil => intro best m; exact Or.inl rfl
  | cons r rs ih =>
    intro best m
    simp only [bestMatchLoop]
    by_cases hc : ruleCount tl r > m
    · rw [if_pos hc]
      rcases ih ⟨r.category, r.tips⟩ (ruleCount tl r) with h | ⟨r', hr', h⟩
      · exact Or.inr ⟨r, List.mem_cons_self r rs, h⟩
      · exact Or.inr ⟨r', List.mem_cons_of_mem r hr', h⟩
    · rw [if_neg hc]
      rcases ih best m with h | ⟨r', hr', h⟩
      · exact Or.inl h
      · exact Or.inr ⟨r', List.mem_cons_of_mem r hr', h⟩

/-- Full characterisation of the selection loop: it returns its initial
best match when the count of no rule strictly exceeds the running maximum,
and otherwise the first rule (in scan order) whose count attains the
overall maximum. -/
theorem bestMatchLoop_spec (tl : String) :
    ∀ (rs : List CategoryRule) (best : BestMatch) (m : Nat),
    bestMatchLoop tl rs best m =
      if maxCount tl rs m = m then best
      else pickBest best
        (rs.find? (fun r => decide (maxCount tl rs m ≤ ruleCount tl r))) := by
  intro rs
  induction rs with
  | nil =>
    intro best m
    simp [bestMatchLoop, maxCount]
  | cons r rs ih =>
    intro best m
    simp only [bestMatchLoop]
    by_cases hc : ruleCount tl r > m
    · rw [if_pos hc, ih ⟨r.category, r.tips⟩ (ruleCount tl r)]
      have hshift : maxCount tl rs (ruleCount tl r) =
          max (ruleCount tl r) (maxCount tl rs m) := by
        have h1 : max (ruleCount tl r) m = ruleCount tl r :=
          Nat.max_eq_left (Nat.le_of_lt hc)
        calc maxCount tl rs (ruleCount tl r)
            = maxCount tl rs (max (ruleCount tl r) m) := by rw [h1]
          _ = max (ruleCount tl r) (maxCount tl rs m) := foldrMax_shift _ _ _
      have hM : maxCount tl (r :: rs) m = maxCount tl rs (ruleCount tl r) := by
        rw [maxCount_cons, hshift]
      have hcond : ¬ maxCount tl (r :: rs) m = m := by
        have h2 : ruleCount tl r ≤ maxCount tl (r :: rs) m := by
          rw [maxCount_cons]; exact Nat.le_max_left _ _
        intro hq
        rw [hq] at h2
        exact absurd hc (Nat.not_lt.mpr h2)
      rw [if_neg hcond]
      by_cases hMc : maxCount tl rs (ruleCount tl r) = ruleCount tl r
      · rw [if_pos hMc]
        have hpred : (decide (maxCount tl (r :: rs) m ≤ ruleCount tl r)) = true := by
          rw [hM, hMc]; simp
        simp only [List.find?, hpred, pickBest]
      · rw [if_neg hMc]
        have hle : ruleCount tl r ≤ maxCount tl rs (ruleCount tl r) :=
          le_maxCount_init _ _ _
        have hlt : ruleCount tl r < maxCount tl rs (ruleCount tl r) :=
          Nat.lt_of_le_of_ne hle (fun hh => hMc hh.symm)
        have hpred : (decide (maxCount tl (r :: rs) m ≤ ruleCount tl r)) = false := by
          rw [hM]
          exact decide_eq_false (Nat.not_le.mpr hlt)
        simp only [List.find?, hpred]
        rw [hM]
        obtain ⟨r', hr', he⟩ :
            ∃ r' ∈ rs, ruleCount tl r' = maxCount tl rs (ruleCount tl r) := by
          rcases maxCount_attained tl rs (ruleCount tl r) with h1 | h1
          · exact absurd h1 hMc
          · exact h1
        have hsome : (rs.find?
            (fun x => decide (maxCount tl rs (ruleCount tl r) ≤ ruleCount tl x))).isSome := by
          rw [List.find?_isSome]
          exact ⟨r', hr', by simp [he]⟩
        obtain ⟨y, hy⟩ := Option.isSome_iff_exists.mp hsome
        rw [hy]
        rfl
    · rw [if_neg hc, ih best m]
      have hcm : ruleCount tl r ≤ m := Nat.le_of_not_lt hc
      have hM : maxCount tl (r :: rs) m = maxCount tl rs m := by
        rw [maxCount_cons]
        exact Nat.max_eq_right (Nat.le_trans hcm (le_maxCount_init _ _ _))
      by_cases hMm : maxCount tl rs m = m
      · rw [if_pos hMm, if_pos (by rw [hM]; exact hMm)]
      · rw [if_neg hMm, if_neg (by rw [hM]; exact hMm)]
        have hgt : m < maxCount tl rs m :=
          Nat.lt_of_le_of_ne (le_maxCount_init _ _ _) (fun hh => hMm hh.symm)
        have hpred : (decide (maxCount tl (r :: rs) m ≤ ruleCount tl r)) = false := by
          rw [hM]
          exact decide_eq_false (Nat.not_le.mpr (Nat.lt_of_le_of_lt hcm hgt))
        simp only [List.find?, hpred]
        rw [hM]

/-! ### Claim theorems (rule-based fallback) -/

/-- Claim C6: the fallback category selection equals the description in the
specification — the category with the strictly greatest keyword count
wins, ties resolve to the first rule in table declaration order, and if
no rule scores above zero the result is General with the generic 3-tip
default (`specBest` transcribes that description). -/
theorem C6_theorem (task : String) :
    bestMatchLoop (lowerS task) categoryRules defaultBest 0 = specBest (lowerS task) ∧
    (fallbackParts task).category = (specBest (lowerS task)).category := by
  have hconv : ∀ a ∈ categoryRules,
      (decide (maxCount (lowerS task) categoryRules 0 ≤ ruleCount (lowerS task) a)) =
      (ruleCount (lowerS task) a == maxCount (lowerS task) categoryRules 0) := by
    intro a ha
    have hle : ruleCount (lowerS task) a ≤ maxCount (lowerS task) categoryRules 0 :=
      ruleCount_le_maxCount _ _ _ ha
    by_cases he : ruleCount (lowerS task) a = maxCount (lowerS task) categoryRules 0
    · simp [he]
    · have hn : ¬ maxCount (lowerS task) categoryRules 0 ≤ ruleCount (lowerS task) a :=
        fun hh => he (Nat.le_antisymm hle hh)
      simp [he, hn]
  have hfirst : bestMatchLoop (lowerS task) categoryRules defaultBest 0 =
      specBest (lowerS task) := by
    rw [bestMatchLoop_spec (lowerS task) categoryRules defaultBest 0,
      find?_congr_mem categoryRules _ _ hconv]
    unfold specBest
    by_cases h0 : maxCount (lowerS task) categoryRules 0 = 0
    · rw [if_pos h0, if_pos h0]
    · rw [if_neg h0, if_neg h0]
      cases categoryRules.find?
          (fun r => ruleCount (lowerS task) r == maxCount (lowerS task) categoryRules 0) with
      | none => rfl
      | some y => rfl
  refine ⟨hfirst, ?_⟩
  have h1 : (fallbackParts task).category =
      (bestMatchLoop (lowerS task) categoryRules defaultBest 0).category := rfl
  rw [h1, hfirst]

/-- Claim C1, counterexample: on the remote-success path the raw model
text is returned verbatim — with a remote response whose text is
"Bogus", `generateTaskSuggestion` returns exactly "Bogus", which does
not even contain any member of the fixed category set. -/
theorem C1_counterexample :
    (generateTaskSuggestion bogusTextOracle "buy milk").result = .ok "Bogus" ∧
    fixedCategories.all (fun c => !(strIncludes "Bogus" c)) = true := by
  constructor
  · rfl
  · decide

/-- Claim C1 as amended: on the rule-based fallback path the category is
always a member of the fixed enumerated set and the priority is always
one of low/medium/high; the remote-success path instead returns the raw
model text without validation (see the counterexample). -/
theorem C1_theorem (task : String) :
    (fallbackParts task).category ∈ fixedCategories ∧
    ((fallbackParts task).priority = "low" ∨ (fallbackParts task).priority = "medium" ∨
      (fallbackParts task).priority = "high") := by
  constructor
  · have h1 : (fallbackParts task).category =
        (bestMatchLoop (lowerS task) categoryRules defaultBest 0).category := rfl
    rw [h1]
    rcases bestMatchLoop_mem (lowerS task) categoryRules defaultBest 0 with h | ⟨r, hr, h⟩
    · rw [h]; decide
    · rw [h]
      have hall : ∀ r ∈ categoryRules, r.category ∈ fixedCategories := by decide
      exact hall r hr
  · have h2 : (fallbackParts task).priority = priorityOf (lowerS task) := rfl
    rw [h2]
    unfold priorityOf
    by_cases hh : highPriorityWords.any (fun w => strIncludes (lowerS task) w) = true
    · rw [if_pos hh]; exact Or.inr (Or.inr rfl)
    · rw [if_neg hh]
      by_cases hl : lowPriorityWords.any (fun w => strIncludes (lowerS task) w) = true
      · rw [if_pos hl]; exact Or.inl rfl
      · rw [if_neg hl]; exact Or.inr (Or.inl rfl)

/-- Claim C7: any high-priority marker in the lower-cased text forces
priority high (regardless of low markers); with no high marker, any low
marker gives low; with neither, medium. -/
theorem C7_theorem (task : String) :
    ((∃ w ∈ highPriorityWords, strIncludes (lowerS task) w = true) →
      (fallbackParts task).priority = "high") ∧
    ((∀ w ∈ highPriorityWords, strIncludes (lowerS task) w = false) →
      (∃ w ∈ lowPriorityWords, strIncludes (lowerS task) w = true) →
      (fallbackParts task).priority = "low") ∧
    ((∀ w ∈ highPriorityWords, strIncludes (lowerS task) w = false) →
      (∀ w ∈ lowPriorityWords, strIncludes (lowerS task) w = false) →
      (fallbackParts task).priority = "medium") := by
  have hpr : (fallbackParts task).priority = priorityOf (lowerS task) := rfl
  refine ⟨?_, ?_, ?_⟩
  · rintro ⟨w, hw, hinc⟩
    have hany : highPriorityWords.any (fun w => strIncludes (lowerS task) w) = true :=
      List.any_eq_true.mpr ⟨w, hw, hinc⟩
    rw [hpr]; unfold priorityOf; rw [if_pos hany]
  · intro hhi hlo
    have hanyh : ¬ highPriorityWords.any (fun w => strIncludes (lowerS task) w) = true := by
      intro hc
      obtain ⟨w, hw, hinc⟩ := List.any_eq_true.mp hc
      rw [hhi w hw] at hinc
      cases hinc
    obtain ⟨w, hw, hinc⟩ := hlo
    have hanyl : lowPriorityWords.any (fun w => strIncludes (lowerS task) w) = true :=
      List.any_eq_true.mpr ⟨w, hw, hinc⟩
    rw [hpr]; unfold priorityOf
    rw [if_neg hanyh, if_pos hanyl]
  · intro hhi hlo
    have hanyh : ¬ highPriorityWords.any (fun w => strIncludes (lowerS task) w) = true := by
      intro hc
      obtain ⟨w, hw, hinc⟩ := List.any_eq_true.mp hc
      rw [hhi w hw] at hinc
      cases hinc
    have hanyl : ¬ lowPriorityWords.any (fun w => strIncludes (lowerS task) w) = true := by
      intro hc
      obtain ⟨w, hw, hinc⟩ := List.any_eq_true.mp hc
      rw [hlo w hw] at hinc
      cases hinc
    rw [hpr]; unfold priorityOf
    rw [if_neg hanyh, if_neg hanyl]

/-- Witness for C7: an input containing both a high marker ("urgent") and
a low marker ("no rush") resolves to high. -/
theorem C7_witness :
    ("urgent" ∈ highPriorityWords ∧
      strIncludes (lowerS "urgent task, no rush on the details") "urgent" = true) ∧
    ("no rush" ∈ lowPriorityWords ∧
      strIncludes (lowerS "urgent task, no rush on the details") "no rush" = true) ∧
    (fallbackParts "urgent task, no rush on the details").priority = "high" :=
  ⟨⟨by decide, by decide⟩, ⟨by decide, by decide⟩,
    (C7_theorem _).1 ⟨"urgent", by decide, by decide⟩⟩

/-- Claim C8, counterexample: with no terminator the title is the
trimmed input, not the full input ("hi " gives title "hi"); and the
description is the input with the first `title.length` characters
removed, not the remainder after the occurrence of the title (" a. b" gives
description "a. b", not ". b"). -/
theorem C8_counterexample :
    (parseTaskFallback "hi ").title = "hi" ∧ "hi" ≠ "hi " ∧
    (parseTaskFallback " a. b").title = "a" ∧
    (parseTaskFallback " a. b").description = "a. b" ∧ "a. b" ≠ ". b" := by
  refine ⟨rfl, by decide, rfl, rfl, by decide⟩

/-- Claim C8 as amended: the title is the text up to the first
sentence-terminator (`.`, `!`, `?`, newline), trimmed — the first 50
characters of the input when that trimmed segment is empty — and the
description is the input with its first `title.length` characters
removed, trimmed, or the empty string when the input is not longer than
the title; the category comes from the reduced keyword table. -/
theorem C8_theorem (input : String) :
    (parseTaskFallback input).title =
      (if trimS (firstSegment input) == "" then substringTo input 50
       else trimS (firstSegment input)) ∧
    (parseTaskFallback input).description =
      (if input.toList.length > (parseTaskFallback input).title.toList.length then
        trimS ⟨input.toList.drop (parseTaskFallback input).title.toList.length⟩
      else "") ∧
    (parseTaskFallback input).category = parseCategoryOf (lowerS input) :=
  ⟨rfl, rfl, rfl⟩

/-- Claim C10: the fallback tip list always has exactly 3 entries. -/
theorem C10_theorem (task : String) : (fallbackParts task).tips.length = 3 := by
  have hlen : (bestMatchLoop (lowerS task) categoryRules defaultBest 0).tips.length = 3 := by
    rcases bestMatchLoop_mem (lowerS task) categoryRules defaultBest 0 with h | ⟨r, hr, h⟩
    · rw [h]; rfl
    · rw [h]
      have hall : ∀ r ∈ categoryRules, r.tips.length = 3 := by decide
      exact hall r hr
  cases htip : generateTaskSpecificTip task
      (bestMatchLoop (lowerS task) categoryRules defaultBest 0).category with
  | none =>
    have ht : (fallbackParts task).tips =
        (bestMatchLoop (lowerS task) categoryRules defaultBest 0).tips := by
      simp only [fallbackParts, htip]
    rw [ht]; exact hlen
  | some t =>
    by_cases hdup : (bestMatchLoop (lowerS task) categoryRules defaultBest 0).tips.contains t
    · have ht : (fallbackParts task).tips =
          (bestMatchLoop (lowerS task) categoryRules defaultBest 0).tips := by
        simp only [fallbackParts, htip]
        rw [if_pos hdup]
      rw [ht]; exact hlen
    · have ht : (fallbackParts task).tips =
          t :: (bestMatchLoop (lowerS task) categoryRules defaultBest 0).tips.take 2 := by
        simp only [fallbackParts, htip]
        rw [if_neg hdup]
      rw [ht, List.length_cons, List.length_take, hlen]
      decide

/-- Claim C5: for every request body that parses to a record whose task
text is empty or whitespace-only, the handler answers with the 400
invalid-input error making no remote attempt; for every other parsed
task text the handler always answers with a 200 success response,
whatever the remote and JSON-parse outcomes — over input texts no
failure other than the invalid-input error is ever surfaced. -/
theorem C5_theorem (oracle : Nat → SendOutcome)
    (jsonParse : String → Except String ParsedTask)
    (bodyParse : String → Except String RequestBody)
    (rawBody : Option String) (body : RequestBody)
    (hb : bodyParse (jsOrStr rawBody "\x7b\x7d") = .ok body) :
    (taskMissing body.task = true →
      (handler oracle jsonParse bodyParse rawBody).response =
        .error "Task is required" 400 ∧
      (handler oracle jsonParse bodyParse rawBody).attempts = 0) ∧
    (taskMissing body.task = false →
      ∃ r, (handler oracle jsonParse bodyParse rawBody).response = .success r 200) := by
  constructor
  · intro h
    constructor <;> simp [handler, hb, h]
  · intro h
    by_cases hm : body.mode == some "parse"
    · obtain ⟨p, hp⟩ := parse_ok oracle jsonParse (body.task.getD "")
      exact ⟨.parsed p, by simp [handler, hb, h, hm, hp]⟩
    · obtain ⟨s, hs⟩ := suggest_ok oracle (body.task.getD "")
      exact ⟨.suggestion s, by simp [handler, hb, h, hm, hs]⟩

/-- Witness for C5: a whitespace-only task gives the 400 error with no
remote attempt; a non-empty task gives a 200 success response even when
the remote endpoint always throttles and JSON parsing always fails. -/
theorem C5_witness :
    taskMissing (some "   ") = true ∧
    (handler throttleOracle failingJsonParse
      (parsedBodyOf ⟨some "   ", none⟩) none).response =
      .error "Task is required" 400 ∧
    (handler throttleOracle failingJsonParse
      (parsedBodyOf ⟨some "   ", none⟩) none).attempts = 0 ∧
    taskMissing (some "hello") = false ∧
    ∃ r, (handler throttleOracle failingJsonParse
      (parsedBodyOf ⟨some "hello", none⟩) none).response = .success r 200 := by
  have h1 := (C5_theorem throttleOracle failingJsonParse
    (parsedBodyOf ⟨some "   ", none⟩) none ⟨some "   ", none⟩ rfl).1 (by decide)
  have h2 := (C5_theorem throttleOracle failingJsonParse
    (parsedBodyOf ⟨some "hello", none⟩) none ⟨some "hello", none⟩ rfl).2 (by decide)
  exact ⟨by decide, h1.1, h1.2, by decide, h2⟩

end AITodo
